import Mathlib

/-!
Verification development for the LIORA identity-coherence sentinel
(`src/liora/liora_observer.py`).

The Python module works on NumPy float64 vectors.  We embed its semantics
over the real numbers: a vector is a `List ℝ`, the Euclidean norm uses
`Real.sqrt`, and the scipy cosine distance is `1 - dot u v / (‖u‖ * ‖v‖)`.
Exceptions (`ValueError` on a zero-magnitude vector, the spec's
`DegenerateVectorError`) are embedded with `Except`.  The wall clock
(`datetime.now`) is modelled as an explicit `String` input to the calls
that read it.  The SHA-256 digest of the float64 byte image of a vector is
not expressible over real scalars, so the digest function is a parameter
`vhash : List ℝ → String` to the constructor; no claim settled here looks
inside the digest string.
-/

namespace Liora

noncomputable section

/-- The error raised by `normalize` on a zero-magnitude vector
(Python `ValueError("Zero vector detected during normalization.")`,
the spec's `DegenerateVectorError`). -/
inductive LioraError where
  | degenerateVector
deriving DecidableEq, Repr

/-- Dot product of two real vectors, truncating to the shorter length
(the behaviour NumPy exhibits only on equal lengths; mismatched lengths
are undefined behaviour in the reference design). -/
def dot (u v : List ℝ) : ℝ :=
  (List.zipWith (fun a b => a * b) u v).sum

/-- Euclidean (L2) norm, `np.linalg.norm`. -/
def l2norm (v : List ℝ) : ℝ :=
  Real.sqrt (dot v v)

/-- `normalize` (source lines 41-46): compute the L2 norm, raise on zero,
otherwise divide every component by the norm. -/
def normalize (v : List ℝ) : Except LioraError (List ℝ) :=
  let n := l2norm v
  if n = 0 then Except.error LioraError.degenerateVector
  else Except.ok (v.map (fun a => a / n))

/-- Python `round(x, 6)`: round to 6 fractional decimal digits.
Python breaks exact ties to even; no claim settled here exercises a tie,
so the embedding uses the nearest integer via `round`. -/
def round6 (x : ℝ) : ℝ :=
  (round (x * 1000000) : ℤ) / 1000000

/-- `collections.deque(maxlen := W)` after `append d`: keep the most
recent `W` entries, evicting the oldest first. -/
def pushWindow (W : ℕ) (q : List ℝ) (d : ℝ) : List ℝ :=
  let q2 := q ++ [d]
  q2.drop (q2.length - W)

/-- `np.mean` of the drift window: sum divided by length. -/
def meanList (q : List ℝ) : ℝ :=
  q.sum / (q.length : ℝ)

/-- `scipy.spatial.distance.cosine`: one minus the dot product scaled by
both Euclidean norms. -/
def cosineDist (u v : List ℝ) : ℝ :=
  1 - dot u v / (l2norm u * l2norm v)

/-- One record of the audit trail (the dict built at source lines 95-104). -/
structure AuditEvent where
  timestamp : String
  step_id : Option Int
  drift_raw : ℝ
  drift_avg : ℝ
  threshold : ℝ
  status : String
  origin_hash : String
  action_required : Bool

/-- The triple `(is_safe, drift, avg_drift)` returned by `observe`. -/
structure ObserveResult where
  is_safe : Bool
  drift : ℝ
  avg_drift : ℝ

/-- The sentinel's state: normalized origin, threshold, origin digest,
audit trail (`history`), drift window (`recent_drifts`) and the window
capacity (the deque's `maxlen`). -/
structure LioraSentinel where
  origin_tii : List ℝ
  threshold : ℝ
  origin_hash : String
  history : List AuditEvent
  recent_drifts : List ℝ
  window_size : ℕ

namespace LioraSentinel

/-- `LioraSentinel.__init__` (source lines 60-77): normalize the origin
(which may raise), store the threshold, digest the normalized origin,
start with an empty trail and an empty window of capacity `window_size`.
`vhash` stands for `stable_vector_hash` (see the file comment). -/
def init (vhash : List ℝ → String) (origin_tii : List ℝ)
    (threshold : ℝ) (window_size : ℕ) :
    Except LioraError LioraSentinel :=
  match normalize origin_tii with
  | Except.error e => Except.error e
  | Except.ok o =>
      Except.ok
        { origin_tii := o
          threshold := threshold
          origin_hash := vhash o
          history := []
          recent_drifts := []
          window_size := window_size }

/-- `observe` (source lines 79-117).  Normalizes the current vector
(raising on a zero vector, before any state is touched), computes the
cosine distance to the stored origin, pushes it into the drift window,
takes the window mean, decides `is_safe = drift <= threshold`, appends
one audit event, and returns `(is_safe, drift, avg_drift)`.  The pair's
second component is the state after the call: unchanged on error. -/
def observe (s : LioraSentinel) (current_tii : List ℝ)
    (timestep_id : Option Int) (now : String) :
    Except LioraError ObserveResult × LioraSentinel :=
  match normalize current_tii with
  | Except.error e => (Except.error e, s)
  | Except.ok cur =>
      let drift := cosineDist s.origin_tii cur
      let recent := pushWindow s.window_size s.recent_drifts drift
      let avg_drift := meanList recent
      let is_safe : Bool := if drift ≤ s.threshold then true else false
      let status : String := if is_safe then "COHERENT" else "DRIFT_ALERT"
      let event : AuditEvent :=
        { timestamp := now
          step_id := timestep_id
          drift_raw := round6 drift
          drift_avg := round6 avg_drift
          threshold := s.threshold
          status := status
          origin_hash := s.origin_hash
          action_required := !is_safe }
      (Except.ok { is_safe := is_safe, drift := drift, avg_drift := avg_drift },
        { s with
            history := s.history ++ [event]
            recent_drifts := recent })

end LioraSentinel

/-- JSON values as Python's `json` module distinguishes them
(`int` and `float` serialize differently, so they are separate). -/
inductive Json where
  | null
  | bool (b : Bool)
  | int (i : Int)
  | num (x : ℝ)
  | str (s : String)
  | arr (xs : List Json)
  | obj (fields : List (String × Json))

/-- The JSON image of one audit event inside the exported report. -/
def eventJson (e : AuditEvent) : Json :=
  Json.obj
    [("timestamp", Json.str e.timestamp),
     ("step_id", match e.step_id with
       | none => Json.null
       | some i => Json.int i),
     ("drift_raw", Json.num e.drift_raw),
     ("drift_avg", Json.num e.drift_avg),
     ("threshold", Json.num e.threshold),
     ("status", Json.str e.status),
     ("origin_hash", Json.str e.origin_hash),
     ("action_required", Json.bool e.action_required)]

/-- `export_report` (source lines 119-135): the report value handed to
`json.dump` — metadata plus the full audit trail.  File writing itself is
glue outside the model; `now` is the generation timestamp. -/
def export_report (s : LioraSentinel) (now : String) : Json :=
  Json.obj
    [("meta", Json.obj
        [("module", Json.str "Liora Identity Observer"),
         ("version", Json.str "1.2"),
         ("generated_at", Json.str now),
         ("origin_hash", Json.str s.origin_hash),
         ("threshold", Json.num s.threshold)]),
     ("audit_trail", Json.arr (s.history.map eventJson))]

/-- Object field lookup, as a parser of the report would perform it. -/
def getField (j : Json) (key : String) : Option Json :=
  match j with
  | Json.obj fields => fields.lookup key
  | _ => none

/-- Read a JSON string. -/
def asStr (j : Json) : Option String :=
  match j with
  | Json.str s => some s
  | _ => none

/-- Read a JSON number. -/
def asNum (j : Json) : Option ℝ :=
  match j with
  | Json.num x => some x
  | _ => none

/-- Read a JSON array. -/
def asArr (j : Json) : Option (List Json) :=
  match j with
  | Json.arr xs => some xs
  | _ => none

/-- Read back a step identifier (`null` or an integer). -/
def asStepId (j : Json) : Option (Option Int) :=
  match j with
  | Json.null => some none
  | Json.int i => some (some i)
  | _ => none

/-- Parse `meta.threshold` out of a report. -/
def parsedThreshold (j : Json) : Option ℝ :=
  (getField j "meta").bind (fun m => (getField m "threshold").bind asNum)

/-- Parse `meta.origin_hash` out of a report. -/
def parsedOriginHash (j : Json) : Option String :=
  (getField j "meta").bind (fun m => (getField m "origin_hash").bind asStr)

/-- Parse the audit-trail array out of a report. -/
def parsedTrail (j : Json) : Option (List Json) :=
  (getField j "audit_trail").bind asArr

/-- Parse the step identifiers of the trail, in storage order. -/
def parsedStepIds (j : Json) : Option (List (Option Int)) :=
  (parsedTrail j).bind
    (fun xs => xs.mapM (fun e => (getField e "step_id").bind asStepId))

/-- Parse the status labels of the trail, in storage order. -/
def parsedStatuses (j : Json) : Option (List String) :=
  (parsedTrail j).bind
    (fun xs => xs.mapM (fun e => (getField e "status").bind asStr))

/-- One call of the demo loop: the observed vector, the caller-chosen
step identifier, and the wall-clock reading for the event. -/
structure ObsCall where
  vec : List ℝ
  step : Option Int
  now : String

/-- Run `observe` over a sequence of calls, stopping at the first
exception (which aborts a Python caller's loop). -/
def runAll (s : LioraSentinel) : List ObsCall → Except LioraError LioraSentinel
  | [] => Except.ok s
  | c :: cs =>
      match s.observe c.vec c.step c.now with
      | (Except.ok _, s2) => runAll s2 cs
      | (Except.error e, _) => Except.error e

/-- The per-step `(is_safe, drift)` outcomes over a sequence of calls,
`none` marking a call that raised (state is kept as-is in that case). -/
def runTrace (s : LioraSentinel) : List ObsCall → List (Option (Bool × ℝ))
  | [] => []
  | c :: cs =>
      match s.observe c.vec c.step c.now with
      | (Except.ok r, s2) => some (r.is_safe, r.drift) :: runTrace s2 cs
      | (Except.error _, s2) => none :: runTrace s2 cs

/-! ### Basic vector lemmas -/

theorem dot_nil (v : List ℝ) : dot [] v = 0 := by
  simp [dot]

theorem dot_nil_right (v : List ℝ) : dot v [] = 0 := by
  cases v <;> simp [dot]

theorem dot_cons_cons (a b : ℝ) (u v : List ℝ) :
    dot (a :: u) (b :: v) = a * b + dot u v := by
  simp [dot]

theorem dot_self_nonneg (v : List ℝ) : 0 ≤ dot v v := by
  induction v with
  | nil => simp [dot]
  | cons a u ih =>
      rw [dot_cons_cons]
      nlinarith [sq_nonneg a]

theorem dot_self_eq_zero_iff (v : List ℝ) :
    dot v v = 0 ↔ ∀ x ∈ v, x = 0 := by
  induction v with
  | nil => simp [dot]
  | cons a u ih =>
      rw [dot_cons_cons]
      constructor
      · intro h
        have ha : a * a = 0 ∧ dot u u = 0 := by
          constructor <;> nlinarith [dot_self_nonneg u, sq_nonneg a]
        have ha0 : a = 0 := by nlinarith [ha.1]
        intro x hx
        rcases List.mem_cons.mp hx with h1 | h2
        · exact h1 ▸ ha0
        · exact ih.mp ha.2 x h2
      · intro h
        have ha0 : a = 0 := h a (List.mem_cons_self a u)
        have hu : dot u u = 0 := ih.mpr (fun x hx => h x (List.mem_cons_of_mem a hx))
        rw [ha0, hu]
        ring

theorem l2norm_eq_zero_iff (v : List ℝ) :
    l2norm v = 0 ↔ ∀ x ∈ v, x = 0 := by
  rw [l2norm, Real.sqrt_eq_zero (dot_self_nonneg v)]
  exact dot_self_eq_zero_iff v

theorem l2norm_nonneg (v : List ℝ) : 0 ≤ l2norm v :=
  Real.sqrt_nonneg _

theorem sq_l2norm (v : List ℝ) : l2norm v * l2norm v = dot v v :=
  Real.mul_self_sqrt (dot_self_nonneg v)

theorem dot_map_div (v : List ℝ) (n : ℝ) :
    dot (v.map (fun a => a / n)) (v.map (fun a => a / n)) = dot v v / (n * n) := by
  induction v with
  | nil => simp [dot]
  | cons a u ih =>
      simp only [List.map_cons, dot_cons_cons, ih]
      rw [div_mul_div_comm, div_add_div_same]

/-- The normalized vector has unit Euclidean norm. -/
theorem l2norm_map_div (v : List ℝ) (h : l2norm v ≠ 0) :
    l2norm (v.map (fun a => a / l2norm v)) = 1 := by
  have hd : dot v v ≠ 0 := by
    intro h0
    exact h (by rw [l2norm, h0, Real.sqrt_zero])
  rw [l2norm, dot_map_div, sq_l2norm, div_self hd, Real.sqrt_one]

theorem normalize_ok (v : List ℝ) (h : l2norm v ≠ 0) :
    normalize v = Except.ok (v.map (fun a => a / l2norm v)) := by
  simp [normalize, h]

theorem normalize_error (v : List ℝ) (h : l2norm v = 0) :
    normalize v = Except.error LioraError.degenerateVector := by
  simp [normalize, h]

/-- Cauchy-Schwarz for the truncating list dot product. -/
theorem dot_sq_le (u v : List ℝ) : dot u v ^ 2 ≤ dot u u * dot v v := by
  induction u generalizing v with
  | nil => simp [dot]
  | cons a u ih =>
      cases v with
      | nil =>
          rw [dot_nil_right, dot_nil_right]
          simp
      | cons b v =>
          have h := ih v
          have hu : 0 ≤ dot u u := dot_self_nonneg u
          have hv : 0 ≤ dot v v := dot_self_nonneg v
          simp only [dot_cons_cons]
          by_cases hA : dot u u = 0
          · have hS : dot u v = 0 := by
              have h2 : dot u v ^ 2 ≤ 0 := by
                calc dot u v ^ 2 ≤ dot u u * dot v v := h
                  _ = 0 := by rw [hA]; ring
              nlinarith [sq_nonneg (dot u v)]
            rw [hA, hS]
            nlinarith [mul_nonneg (mul_self_nonneg a) hv]
          · have hA' : 0 < dot u u := lt_of_le_of_ne hu (Ne.symm hA)
            nlinarith [sq_nonneg (a * dot u v - b * dot u u),
              mul_nonneg (sq_nonneg a) (sub_nonneg.mpr h),
              mul_nonneg hu (sub_nonneg.mpr h)]

/-! ### Unfolding `observe` -/

/-- The audit event `observe` builds from a computed drift and window
average (the dict literal at source lines 95-104). -/
def builtEvent (s : LioraSentinel) (drift avg : ℝ)
    (step : Option Int) (now : String) : AuditEvent :=
  { timestamp := now
    step_id := step
    drift_raw := round6 drift
    drift_avg := round6 avg
    threshold := s.threshold
    status := if drift ≤ s.threshold then "COHERENT" else "DRIFT_ALERT"
    origin_hash := s.origin_hash
    action_required := ! (if drift ≤ s.threshold then true else false) }

theorem observe_error_eq (s : LioraSentinel) (v : List ℝ)
    (step : Option Int) (now : String) (e : LioraError)
    (h : normalize v = Except.error e) :
    s.observe v step now = (Except.error e, s) := by
  simp [LioraSentinel.observe, h]

theorem observe_ok_eq (s : LioraSentinel) (v w : List ℝ)
    (step : Option Int) (now : String) (h : normalize v = Except.ok w) :
    s.observe v step now =
      (Except.ok
        { is_safe := if cosineDist s.origin_tii w ≤ s.threshold then true else false
          drift := cosineDist s.origin_tii w
          avg_drift := meanList (pushWindow s.window_size s.recent_drifts
            (cosineDist s.origin_tii w)) },
       { s with
          history := s.history ++
            [builtEvent s (cosineDist s.origin_tii w)
              (meanList (pushWindow s.window_size s.recent_drifts
                (cosineDist s.origin_tii w))) step now]
          recent_drifts := pushWindow s.window_size s.recent_drifts
            (cosineDist s.origin_tii w) }) := by
  simp only [LioraSentinel.observe, h, builtEvent]
  split <;> simp_all

/-- `observe` never touches the origin, the threshold, the digest or the
window capacity, whether it succeeds or raises. -/
theorem observe_preserves_config (s : LioraSentinel) (v : List ℝ)
    (step : Option Int) (now : String) :
    (s.observe v step now).2.origin_tii = s.origin_tii ∧
    (s.observe v step now).2.threshold = s.threshold ∧
    (s.observe v step now).2.origin_hash = s.origin_hash ∧
    (s.observe v step now).2.window_size = s.window_size := by
  cases h : normalize v with
  | error e => rw [observe_error_eq s v step now e h]; exact ⟨rfl, rfl, rfl, rfl⟩
  | ok w => rw [observe_ok_eq s v _ step now h]; exact ⟨rfl, rfl, rfl, rfl⟩

/-- Cosine distance between unit-norm vectors: `1 - dot`, within `[0, 2]`. -/
theorem cosineDist_unit (u w : List ℝ) (hu : l2norm u = 1) (hw : l2norm w = 1) :
    cosineDist u w = 1 - dot u w ∧ 0 ≤ cosineDist u w ∧ cosineDist u w ≤ 2 := by
  have hdu : dot u u = 1 := by rw [← sq_l2norm, hu]; ring
  have hdw : dot w w = 1 := by rw [← sq_l2norm, hw]; ring
  have hcs : dot u w ^ 2 ≤ 1 := by
    have := dot_sq_le u w
    rw [hdu, hdw] at this
    linarith
  have habs : -1 ≤ dot u w ∧ dot u w ≤ 1 := by
    constructor <;> nlinarith [sq_nonneg (dot u w + 1), sq_nonneg (dot u w - 1)]
  have heq : cosineDist u w = 1 - dot u w := by
    rw [cosineDist, hu, hw]
    norm_num
  exact ⟨heq, by rw [heq]; linarith [habs.2], by rw [heq]; linarith [habs.1]⟩

/-! ### Running sequences of observations -/

theorem runAll_ok_spec (calls : List ObsCall) :
    ∀ s s2 : LioraSentinel, runAll s calls = Except.ok s2 →
      s2.origin_tii = s.origin_tii ∧ s2.threshold = s.threshold ∧
      s2.origin_hash = s.origin_hash ∧ s2.window_size = s.window_size ∧
      ∃ newEvents : List AuditEvent,
        s2.history = s.history ++ newEvents ∧
        newEvents.map AuditEvent.step_id = calls.map ObsCall.step := by
  induction calls with
  | nil =>
      intro s s2 h
      simp only [runAll] at h
      cases h
      exact ⟨rfl, rfl, rfl, rfl, [], by simp, by simp⟩
  | cons c cs ih =>
      intro s s2 h
      simp only [runAll] at h
      cases hn : normalize c.vec with
      | error e =>
          rw [observe_error_eq s c.vec c.step c.now e hn] at h
          exact absurd h (by simp)
      | ok w =>
          rw [observe_ok_eq s c.vec _ c.step c.now hn] at h
          obtain ⟨h1, h2, h3, h4, rest, hhist, hsteps⟩ := ih _ _ h
          refine ⟨h1, h2, h3, h4,
            builtEvent s (cosineDist s.origin_tii w)
              (meanList (pushWindow s.window_size s.recent_drifts
                (cosineDist s.origin_tii w))) c.step c.now :: rest, ?_, ?_⟩
          · rw [hhist]; simp
          · simp [hsteps, builtEvent]

/-- The `(is_safe, drift)` trace depends only on the origin and the
threshold, never on the drift window or its capacity. -/
theorem runTrace_congr (calls : List ObsCall) :
    ∀ s1 s2 : LioraSentinel, s1.origin_tii = s2.origin_tii →
      s1.threshold = s2.threshold →
      runTrace s1 calls = runTrace s2 calls := by
  induction calls with
  | nil => intro s1 s2 _ _; rfl
  | cons c cs ih =>
      intro s1 s2 ho ht
      simp only [runTrace]
      cases hn : normalize c.vec with
      | error e =>
          rw [observe_error_eq s1 c.vec c.step c.now e hn,
            observe_error_eq s2 c.vec c.step c.now e hn]
          simp only []
          exact congrArg _ (ih s1 s2 ho ht)
      | ok w =>
          rw [observe_ok_eq s1 c.vec _ c.step c.now hn,
            observe_ok_eq s2 c.vec _ c.step c.now hn]
          simp only [ho, ht]
          refine congrArg _ (ih _ _ ?_ ?_) <;> simp [ho, ht]

/-- Inversion of a successful construction: the origin normalized, the
rest of the state initial. -/
theorem init_ok_spec (vhash : List ℝ → String) (o : List ℝ) (t : ℝ) (W : ℕ)
    (s : LioraSentinel) (h : LioraSentinel.init vhash o t W = Except.ok s) :
    ∃ w : List ℝ, normalize o = Except.ok w ∧
      s = { origin_tii := w, threshold := t, origin_hash := vhash w,
            history := [], recent_drifts := [], window_size := W } := by
  cases hn : normalize o with
  | error e => rw [LioraSentinel.init, hn] at h; exact absurd h (by simp)
  | ok w =>
      rw [LioraSentinel.init, hn] at h
      exact ⟨w, rfl, by cases h; rfl⟩

/-! ### Report round-trip lemmas -/

theorem parsedThreshold_export (s : LioraSentinel) (now : String) :
    parsedThreshold (export_report s now) = some s.threshold := rfl

theorem parsedOriginHash_export (s : LioraSentinel) (now : String) :
    parsedOriginHash (export_report s now) = some s.origin_hash := rfl

theorem parsedTrail_export (s : LioraSentinel) (now : String) :
    parsedTrail (export_report s now) = some (s.history.map eventJson) := rfl

theorem trail_stepIds_roundtrip (es : List AuditEvent) :
    (es.map eventJson).mapM (fun e => (getField e "step_id").bind asStepId) =
      some (es.map AuditEvent.step_id) := by
  induction es with
  | nil => rfl
  | cons e es ih =>
      have hhead : (getField (eventJson e) "step_id").bind asStepId =
          some e.step_id := by
        cases h : e.step_id <;> rw [eventJson, h] <;> rfl
      simp only [List.map_cons, List.mapM_cons, hhead, ih, Option.bind_eq_bind,
        Option.some_bind, Option.pure_def]

theorem trail_statuses_roundtrip (es : List AuditEvent) :
    (es.map eventJson).mapM (fun e => (getField e "status").bind asStr) =
      some (es.map AuditEvent.status) := by
  induction es with
  | nil => rfl
  | cons e es ih =>
      have hhead : (getField (eventJson e) "status").bind asStr =
          some e.status := by
        cases h : e.step_id <;> rw [eventJson, h] <;> rfl
      simp only [List.map_cons, List.mapM_cons, hhead, ih, Option.bind_eq_bind,
        Option.some_bind, Option.pure_def]

theorem parsedStepIds_export (s : LioraSentinel) (now : String) :
    parsedStepIds (export_report s now) = some (s.history.map AuditEvent.step_id) := by
  rw [parsedStepIds, parsedTrail_export]
  exact trail_stepIds_roundtrip s.history

theorem parsedStatuses_export (s : LioraSentinel) (now : String) :
    parsedStatuses (export_report s now) = some (s.history.map AuditEvent.status) := by
  rw [parsedStatuses, parsedTrail_export]
  exact trail_statuses_roundtrip s.history

/-! ### Concrete evaluations -/

theorem dot_pair (a b c d : ℝ) : dot [a, b] [c, d] = a * c + b * d := by
  simp [dot]

theorem l2norm_pair (a b : ℝ) : l2norm [a, b] = Real.sqrt (a * a + b * b) := by
  rw [l2norm, dot_pair]

theorem l2norm_one_zero : l2norm [(1 : ℝ), 0] = 1 := by
  rw [l2norm_pair]
  norm_num

theorem l2norm_zero_one : l2norm [(0 : ℝ), 1] = 1 := by
  rw [l2norm_pair]
  norm_num

theorem l2norm_neg_one_zero : l2norm [(-1 : ℝ), 0] = 1 := by
  rw [l2norm_pair]
  norm_num

theorem l2norm_zero_zero : l2norm [(0 : ℝ), 0] = 0 := by
  rw [l2norm_pair]
  norm_num

theorem normalize_one_zero : normalize [(1 : ℝ), 0] = Except.ok [1, 0] := by
  rw [normalize_ok _ (by rw [l2norm_one_zero]; norm_num), l2norm_one_zero]
  norm_num

theorem normalize_zero_one : normalize [(0 : ℝ), 1] = Except.ok [0, 1] := by
  rw [normalize_ok _ (by rw [l2norm_zero_one]; norm_num), l2norm_zero_one]
  norm_num

theorem normalize_neg_one_zero : normalize [(-1 : ℝ), 0] = Except.ok [-1, 0] := by
  rw [normalize_ok _ (by rw [l2norm_neg_one_zero]; norm_num), l2norm_neg_one_zero]
  norm_num

theorem cosineDist_10_10 : cosineDist [(1 : ℝ), 0] [1, 0] = 0 := by
  rw [cosineDist, dot_pair, l2norm_one_zero]
  norm_num

theorem cosineDist_10_01 : cosineDist [(1 : ℝ), 0] [0, 1] = 1 := by
  rw [cosineDist, dot_pair, l2norm_one_zero, l2norm_zero_one]
  norm_num

theorem cosineDist_10_m10 : cosineDist [(1 : ℝ), 0] [-1, 0] = 2 := by
  rw [cosineDist, dot_pair, l2norm_one_zero, l2norm_neg_one_zero]
  norm_num

/-! ### Claims -/

/-- C1: on every successful `observe` the returned `is_safe` is true
exactly when the computed drift is at most the threshold; the appended
event's status is `"COHERENT"` iff `is_safe`, `"DRIFT_ALERT"` otherwise,
and `action_required` is the negation of `is_safe`.  The decision is the
comparison of the drift with the threshold alone — the window average
appears nowhere in it. -/
theorem c1_decision_rule (s s2 : LioraSentinel) (v : List ℝ)
    (step : Option Int) (now : String) (r : ObserveResult)
    (h : s.observe v step now = (Except.ok r, s2)) :
    (r.is_safe = true ↔ r.drift ≤ s.threshold) ∧
    ∃ e : AuditEvent, s2.history = s.history ++ [e] ∧
      e.status = (if r.is_safe then "COHERENT" else "DRIFT_ALERT") ∧
      e.action_required = (! r.is_safe) := by
  cases hn : normalize v with
  | error err =>
      rw [observe_error_eq s v step now err hn] at h
      exact absurd h (by simp)
  | ok w =>
      rw [observe_ok_eq s v _ step now hn] at h
      injection h with h1 h2
      injection h1 with hr
      subst hr
      subst h2
      constructor
      · by_cases hd : cosineDist s.origin_tii w ≤ s.threshold <;> simp [hd]
      · refine ⟨builtEvent s (cosineDist s.origin_tii w)
          (meanList (pushWindow s.window_size s.recent_drifts
            (cosineDist s.origin_tii w))) step now, rfl, ?_, ?_⟩ <;>
          by_cases hd : cosineDist s.origin_tii w ≤ s.threshold <;>
          simp [builtEvent, hd]

/-- Witness for C1 at origin `[1, 0]`, threshold `0.15`, observing `[1, 0]`. -/
theorem c1_decision_rule_witness :
    ∃ (r : ObserveResult) (s2 : LioraSentinel) (e : AuditEvent),
      LioraSentinel.observe ⟨[(1 : ℝ), 0], 0.15, "h", [], [], 5⟩ [1, 0] none "" =
        (Except.ok r, s2) ∧
      (r.is_safe = true ↔ r.drift ≤ (0.15 : ℝ)) ∧
      s2.history = [e] ∧
      e.status = (if r.is_safe then "COHERENT" else "DRIFT_ALERT") ∧
      e.action_required = (! r.is_safe) := by
  have heq := observe_ok_eq ⟨[(1 : ℝ), 0], 0.15, "h", [], [], 5⟩ [1, 0] _
    none "" normalize_one_zero
  obtain ⟨hiff, e, hhist, hstat, hact⟩ :=
    c1_decision_rule _ _ [1, 0] none "" _ heq
  exact ⟨_, _, e, heq, hiff, by simpa using hhist, hstat, hact⟩

/-- C3: normalizing a zero-magnitude vector always raises
`DegenerateVectorError` and never returns a value, and the error
propagates unrecovered both out of construction and out of `observe`
(which leaves the state untouched). -/
theorem c3_zero_vector_error (v : List ℝ) (h : l2norm v = 0) :
    normalize v = Except.error LioraError.degenerateVector ∧
    (∀ (vhash : List ℝ → String) (t : ℝ) (W : ℕ),
      LioraSentinel.init vhash v t W =
        Except.error LioraError.degenerateVector) ∧
    (∀ (s : LioraSentinel) (step : Option Int) (now : String),
      s.observe v step now =
        (Except.error LioraError.degenerateVector, s)) := by
  have hn := normalize_error v h
  refine ⟨hn, fun vhash t W => ?_, fun s step now => ?_⟩
  · rw [LioraSentinel.init, hn]
  · exact observe_error_eq s v step now _ hn

/-- Witness for C3 at the zero vector `[0, 0]`. -/
theorem c3_zero_vector_error_witness :
    normalize [(0 : ℝ), 0] = Except.error LioraError.degenerateVector ∧
    LioraSentinel.init (fun _ => "") [(0 : ℝ), 0] 0.15 5 =
      Except.error LioraError.degenerateVector ∧
    LioraSentinel.observe ⟨[(1 : ℝ), 0], 0.15, "h", [], [], 5⟩ [0, 0] none "" =
      (Except.error LioraError.degenerateVector,
        ⟨[(1 : ℝ), 0], 0.15, "h", [], [], 5⟩) := by
  obtain ⟨h1, h2, h3⟩ := c3_zero_vector_error [(0 : ℝ), 0] l2norm_zero_zero
  exact ⟨h1, h2 _ _ _, h3 _ _ _⟩

/-- C4: for every vector with a non-zero component, `normalize` returns
the vector of components divided by the Euclidean norm, and that result
has unit norm.  (`normalize` is a pure function of its argument in this
embedding, matching the source, which allocates `v / n` afresh and never
writes to its input.) -/
theorem c4_normalize_unit (v : List ℝ) (h : ¬ ∀ x ∈ v, x = 0) :
    normalize v = Except.ok (v.map (fun a => a / l2norm v)) ∧
    l2norm (v.map (fun a => a / l2norm v)) = 1 := by
  have hn : l2norm v ≠ 0 := fun h0 => h ((l2norm_eq_zero_iff v).mp h0)
  exact ⟨normalize_ok v hn, l2norm_map_div v hn⟩

/-- Witness for C4 at `[3, 4]`. -/
theorem c4_normalize_unit_witness :
    normalize [(3 : ℝ), 4] =
      Except.ok ([(3 : ℝ), 4].map (fun a => a / l2norm [(3 : ℝ), 4])) ∧
    l2norm ([(3 : ℝ), 4].map (fun a => a / l2norm [(3 : ℝ), 4])) = 1 := by
  refine c4_normalize_unit [(3 : ℝ), 4] ?_
  intro hall
  exact absurd (hall 3 (by simp)) (by norm_num)

/-- C2: for any sentinel (whose stored origin is unit-norm, as
construction guarantees) and any observed vector with a non-zero
component, the drift returned by `observe` is one minus the dot product
of the normalized origin with the normalized observation, hence lies in
`[0, 2]`; and in the concrete scenario with origin `[1, 0]` and threshold
`0.01`, observing `[1, 0]`, `[0, 1]`, `[-1, 0]` in turn yields drifts
`0`, `1`, `2` with safety `true`, `false`, `false`. -/
theorem c2_cosine_drift :
    (∀ (s s2 : LioraSentinel) (v : List ℝ) (step : Option Int) (now : String)
      (r : ObserveResult),
      l2norm s.origin_tii = 1 →
      (¬ ∀ x ∈ v, x = 0) →
      s.observe v step now = (Except.ok r, s2) →
      r.drift = 1 - dot s.origin_tii (v.map (fun a => a / l2norm v)) ∧
      0 ≤ r.drift ∧ r.drift ≤ 2) ∧
    (∀ vhash : List ℝ → String,
      ∃ (s s1 s2 s3 : LioraSentinel) (r1 r2 r3 : ObserveResult),
        LioraSentinel.init vhash [1, 0] 0.01 5 = Except.ok s ∧
        s.observe [1, 0] none "" = (Except.ok r1, s1) ∧
        r1.is_safe = true ∧ r1.drift = 0 ∧
        s1.observe [0, 1] none "" = (Except.ok r2, s2) ∧
        r2.is_safe = false ∧ r2.drift = 1 ∧
        s2.observe [-1, 0] none "" = (Except.ok r3, s3) ∧
        r3.is_safe = false ∧ r3.drift = 2) := by
  constructor
  · intro s s2 v step now r hu hv h
    have hn : l2norm v ≠ 0 := fun h0 => hv ((l2norm_eq_zero_iff v).mp h0)
    rw [observe_ok_eq s v _ step now (normalize_ok v hn)] at h
    injection h with h1 h2
    injection h1 with hr
    subst hr
    have hw : l2norm (v.map (fun a => a / l2norm v)) = 1 := l2norm_map_div v hn
    obtain ⟨heq, hlo, hhi⟩ :=
      cosineDist_unit s.origin_tii (v.map (fun a => a / l2norm v)) hu hw
    exact ⟨heq, hlo, hhi⟩
  · intro vhash
    have hinit : LioraSentinel.init vhash [1, 0] 0.01 5 =
        Except.ok ⟨[(1 : ℝ), 0], 0.01, vhash [1, 0], [], [], 5⟩ := by
      rw [LioraSentinel.init, normalize_one_zero]
    refine ⟨⟨[(1 : ℝ), 0], 0.01, vhash [1, 0], [], [], 5⟩, _, _, _, _, _, _,
      hinit,
      observe_ok_eq _ [1, 0] _ none "" normalize_one_zero, ?_, ?_,
      observe_ok_eq _ [0, 1] _ none "" normalize_zero_one, ?_, ?_,
      observe_ok_eq _ [-1, 0] _ none "" normalize_neg_one_zero, ?_, ?_⟩ <;>
      norm_num [cosineDist_10_10, cosineDist_10_01, cosineDist_10_m10]

/-- Witness for C2: the general part applied at origin `[1, 0]`,
threshold `0.01`, observing `[0, 1]`. -/
theorem c2_cosine_drift_witness :
    ∃ (r : ObserveResult) (s2 : LioraSentinel),
      LioraSentinel.observe ⟨[(1 : ℝ), 0], 0.01, "h", [], [], 5⟩ [0, 1] none "" =
        (Except.ok r, s2) ∧
      r.drift = 1 - dot [(1 : ℝ), 0] ([(0 : ℝ), 1].map
        (fun a => a / l2norm [(0 : ℝ), 1])) ∧
      0 ≤ r.drift ∧ r.drift ≤ 2 := by
  have heq := observe_ok_eq ⟨[(1 : ℝ), 0], 0.01, "h", [], [], 5⟩ [0, 1] _
    none "" normalize_zero_one
  have hconc := c2_cosine_drift.1 ⟨[(1 : ℝ), 0], 0.01, "h", [], [], 5⟩ _
    [0, 1] none "" _
    l2norm_one_zero (by intro hall; exact absurd (hall 1 (by simp)) (by norm_num))
    heq
  exact ⟨_, _, heq, hconc.1, hconc.2.1, hconc.2.2⟩

/-- C5: two sentinels built with the same origin and threshold but any
two window sizes produce identical `is_safe` and `drift` outcomes on
every step of any observation sequence (only the diagnostic average may
differ). -/
theorem c5_window_size_no_influence (vhash : List ℝ → String) (o : List ℝ)
    (t : ℝ) (W1 W2 : ℕ) (s1 s2 : LioraSentinel)
    (h1 : LioraSentinel.init vhash o t W1 = Except.ok s1)
    (h2 : LioraSentinel.init vhash o t W2 = Except.ok s2)
    (calls : List ObsCall) :
    runTrace s1 calls = runTrace s2 calls := by
  obtain ⟨w1, hn1, hs1⟩ := init_ok_spec vhash o t W1 s1 h1
  obtain ⟨w2, hn2, hs2⟩ := init_ok_spec vhash o t W2 s2 h2
  rw [hn1] at hn2
  injection hn2 with hw
  subst hw
  exact runTrace_congr calls s1 s2 (by rw [hs1, hs2]) (by rw [hs1, hs2])

/-- Witness for C5: window sizes 1 and 3, origin `[1, 0]`, one call. -/
theorem c5_window_size_no_influence_witness :
    ∃ s1 s2 : LioraSentinel,
      LioraSentinel.init (fun _ => "") [1, 0] 0.15 1 = Except.ok s1 ∧
      LioraSentinel.init (fun _ => "") [1, 0] 0.15 3 = Except.ok s2 ∧
      runTrace s1 [⟨[0, 1], none, ""⟩] = runTrace s2 [⟨[0, 1], none, ""⟩] := by
  have hi1 : LioraSentinel.init (fun _ => "") [1, 0] 0.15 1 =
      Except.ok ⟨[(1 : ℝ), 0], 0.15, "", [], [], 1⟩ := by
    rw [LioraSentinel.init, normalize_one_zero]
  have hi2 : LioraSentinel.init (fun _ => "") [1, 0] 0.15 3 =
      Except.ok ⟨[(1 : ℝ), 0], 0.15, "", [], [], 3⟩ := by
    rw [LioraSentinel.init, normalize_one_zero]
  exact ⟨_, _, hi1, hi2,
    c5_window_size_no_influence (fun _ => "") [1, 0] 0.15 1 3 _ _ hi1 hi2 _⟩

/-- C6: `observe` is atomic in this embedding, as in the source, where
the only raise happens before any mutation: on failure the state is
returned exactly as it was; on success exactly one event is appended to
the trail, exactly one drift value is pushed through the window, and
every other field is unchanged. -/
theorem c6_observe_atomic (s : LioraSentinel) (v : List ℝ)
    (step : Option Int) (now : String) :
    (∀ e : LioraError, (s.observe v step now).1 = Except.error e →
      (s.observe v step now).2 = s) ∧
    (∀ r : ObserveResult, (s.observe v step now).1 = Except.ok r →
      ∃ ev : AuditEvent,
        (s.observe v step now).2 =
          { s with
              history := s.history ++ [ev]
              recent_drifts := pushWindow s.window_size s.recent_drifts r.drift }) := by
  cases hn : normalize v with
  | error err =>
      rw [observe_error_eq s v step now err hn]
      exact ⟨fun e _ => rfl, fun r hr => absurd hr (by simp)⟩
  | ok w =>
      rw [observe_ok_eq s v _ step now hn]
      refine ⟨fun e he => absurd he (by simp), fun r hr => ?_⟩
      injection hr with hr'
      subst hr'
      exact ⟨builtEvent s (cosineDist s.origin_tii w)
        (meanList (pushWindow s.window_size s.recent_drifts
          (cosineDist s.origin_tii w))) step now, rfl⟩

/-- Witness for C6: the failing branch at `[0, 0]` leaves the concrete
state intact, and the succeeding branch at `[1, 0]` appends one event. -/
theorem c6_observe_atomic_witness :
    (LioraSentinel.observe ⟨[(1 : ℝ), 0], 0.15, "h", [], [], 5⟩ [0, 0]
      none "").2 = ⟨[(1 : ℝ), 0], 0.15, "h", [], [], 5⟩ ∧
    ∃ (r : ObserveResult) (ev : AuditEvent),
      (LioraSentinel.observe ⟨[(1 : ℝ), 0], 0.15, "h", [], [], 5⟩ [1, 0]
        none "").1 = Except.ok r ∧
      (LioraSentinel.observe ⟨[(1 : ℝ), 0], 0.15, "h", [], [], 5⟩ [1, 0]
        none "").2 =
        ⟨[(1 : ℝ), 0], 0.15, "h", [] ++ [ev], pushWindow 5 [] r.drift, 5⟩ := by
  constructor
  · refine (c6_observe_atomic ⟨[(1 : ℝ), 0], 0.15, "h", [], [], 5⟩ [0, 0]
      none "").1 LioraError.degenerateVector ?_
    rw [observe_error_eq _ [0, 0] none "" _ (normalize_error _ l2norm_zero_zero)]
  · have heq := observe_ok_eq ⟨[(1 : ℝ), 0], 0.15, "h", [], [], 5⟩ [1, 0] _
      none "" normalize_one_zero
    have hfst : (LioraSentinel.observe ⟨[(1 : ℝ), 0], 0.15, "h", [], [], 5⟩
        [1, 0] none "").1 = Except.ok
          { is_safe := if cosineDist [(1 : ℝ), 0] [1, 0] ≤ (0.15 : ℝ)
              then true else false
            drift := cosineDist [(1 : ℝ), 0] [1, 0]
            avg_drift := meanList (pushWindow 5 []
              (cosineDist [(1 : ℝ), 0] [1, 0])) } := by
      rw [heq]
    obtain ⟨ev, hev⟩ := (c6_observe_atomic ⟨[(1 : ℝ), 0], 0.15, "h", [], [], 5⟩
      [1, 0] none "").2 _ hfst
    exact ⟨_, ev, hfst, hev⟩

/-- C7: after any successful run of observations on a freshly built
sentinel, the exported report parses back to the sentinel's threshold and
origin hash in `meta`, and to an audit trail of exactly one entry per
call whose step identifiers are the calls' identifiers and whose status
labels are the recorded events' labels, in call order. -/
theorem c7_report_roundtrip (vhash : List ℝ → String) (o : List ℝ) (t : ℝ)
    (W : ℕ) (s0 s : LioraSentinel) (calls : List ObsCall) (now : String)
    (h0 : LioraSentinel.init vhash o t W = Except.ok s0)
    (h : runAll s0 calls = Except.ok s) :
    parsedThreshold (export_report s now) = some s.threshold ∧
    parsedOriginHash (export_report s now) = some s.origin_hash ∧
    (parsedTrail (export_report s now)).map List.length = some calls.length ∧
    parsedStepIds (export_report s now) = some (calls.map ObsCall.step) ∧
    parsedStatuses (export_report s now) =
      some (s.history.map AuditEvent.status) := by
  obtain ⟨w, hn, hs0⟩ := init_ok_spec vhash o t W s0 h0
  obtain ⟨_, _, _, _, newEvents, hhist, hsteps⟩ := runAll_ok_spec calls s0 s h
  have hh : s.history = newEvents := by rw [hhist, hs0]; simp
  refine ⟨parsedThreshold_export s now, parsedOriginHash_export s now,
    ?_, ?_, parsedStatuses_export s now⟩
  · rw [parsedTrail_export]
    have := congrArg List.length hsteps
    simp only [List.length_map] at this
    simp [hh, this]
  · rw [parsedStepIds_export, hh, hsteps]

/-- Witness for C7: one observation with step id `7`. -/
theorem c7_report_roundtrip_witness :
    ∃ s0 s : LioraSentinel,
      LioraSentinel.init (fun _ => "H") [1, 0] 0.15 5 = Except.ok s0 ∧
      runAll s0 [⟨[0, 1], some 7, "T1"⟩] = Except.ok s ∧
      parsedThreshold (export_report s "T2") = some s.threshold ∧
      parsedOriginHash (export_report s "T2") = some s.origin_hash ∧
      (parsedTrail (export_report s "T2")).map List.length = some 1 ∧
      parsedStepIds (export_report s "T2") = some [some 7] ∧
      parsedStatuses (export_report s "T2") =
        some (s.history.map AuditEvent.status) := by
  have hi : LioraSentinel.init (fun _ => "H") [1, 0] 0.15 5 =
      Except.ok ⟨[(1 : ℝ), 0], 0.15, "H", [], [], 5⟩ := by
    rw [LioraSentinel.init, normalize_one_zero]
  have hobs := observe_ok_eq ⟨[(1 : ℝ), 0], 0.15, "H", [], [], 5⟩ [0, 1] _
    (some 7) "T1" normalize_zero_one
  have hrun : runAll ⟨[(1 : ℝ), 0], 0.15, "H", [], [], 5⟩
      [⟨[0, 1], some 7, "T1"⟩] =
      Except.ok ((LioraSentinel.observe ⟨[(1 : ℝ), 0], 0.15, "H", [], [], 5⟩
        [0, 1] (some 7) "T1").2) := by
    simp only [runAll, hobs]
  obtain ⟨p1, p2, p3, p4, p5⟩ := c7_report_roundtrip (fun _ => "H") [1, 0]
    0.15 5 _ _ [⟨[0, 1], some 7, "T1"⟩] "T2" hi hrun
  exact ⟨_, _, hi, hrun, p1, p2, p3, p4, p5⟩

/-- C8: after `N` successful observations on a fresh sentinel the trail
holds exactly `N` events in call order (witnessed by the pass-through
step identifiers), and any further successful observations only extend
the trail — the existing prefix is left intact. -/
theorem c8_trail_append_only (vhash : List ℝ → String) (o : List ℝ) (t : ℝ)
    (W : ℕ) (s0 s s2 : LioraSentinel) (calls later : List ObsCall)
    (h0 : LioraSentinel.init vhash o t W = Except.ok s0)
    (h : runAll s0 calls = Except.ok s)
    (h2 : runAll s later = Except.ok s2) :
    s.history.length = calls.length ∧
    s.history.map AuditEvent.step_id = calls.map ObsCall.step ∧
    s2.history.take s.history.length = s.history := by
  obtain ⟨w, hn, hs0⟩ := init_ok_spec vhash o t W s0 h0
  obtain ⟨_, _, _, _, new1, hh1, hst1⟩ := runAll_ok_spec calls s0 s h
  obtain ⟨_, _, _, _, new2, hh2, _⟩ := runAll_ok_spec later s s2 h2
  have hs : s.history = new1 := by rw [hh1, hs0]; simp
  refine ⟨?_, ?_, ?_⟩
  · have := congrArg List.length hst1
    simp only [List.length_map] at this
    rw [hs, this]
  · rw [hs, hst1]
  · rw [hh2]
    exact List.take_left _ _

/-- Witness for C8: one observation, then one more. -/
theorem c8_trail_append_only_witness :
    ∃ s0 s s2 : LioraSentinel,
      LioraSentinel.init (fun _ => "") [1, 0] 0.15 5 = Except.ok s0 ∧
      runAll s0 [⟨[1, 0], some 1, ""⟩] = Except.ok s ∧
      runAll s [⟨[0, 1], some 2, ""⟩] = Except.ok s2 ∧
      s.history.length = 1 ∧
      s.history.map AuditEvent.step_id = [some 1] ∧
      s2.history.take s.history.length = s.history := by
  have hi : LioraSentinel.init (fun _ => "") [1, 0] 0.15 5 =
      Except.ok ⟨[(1 : ℝ), 0], 0.15, "", [], [], 5⟩ := by
    rw [LioraSentinel.init, normalize_one_zero]
  have hobs1 := observe_ok_eq ⟨[(1 : ℝ), 0], 0.15, "", [], [], 5⟩ [1, 0] _
    (some 1) "" normalize_one_zero
  have hrun1 : runAll ⟨[(1 : ℝ), 0], 0.15, "", [], [], 5⟩
      [⟨[1, 0], some 1, ""⟩] =
      Except.ok ((LioraSentinel.observe ⟨[(1 : ℝ), 0], 0.15, "", [], [], 5⟩
        [1, 0] (some 1) "").2) := by
    simp only [runAll, hobs1]
  have hobs2 := observe_ok_eq ((LioraSentinel.observe
      ⟨[(1 : ℝ), 0], 0.15, "", [], [], 5⟩ [1, 0] (some 1) "").2) [0, 1] _
    (some 2) "" normalize_zero_one
  have hrun2 : runAll ((LioraSentinel.observe
      ⟨[(1 : ℝ), 0], 0.15, "", [], [], 5⟩ [1, 0] (some 1) "").2)
      [⟨[0, 1], some 2, ""⟩] =
      Except.ok ((LioraSentinel.observe ((LioraSentinel.observe
        ⟨[(1 : ℝ), 0], 0.15, "", [], [], 5⟩ [1, 0] (some 1) "").2)
        [0, 1] (some 2) "").2) := by
    simp only [runAll, hobs2]
  obtain ⟨q1, q2, q3⟩ := c8_trail_append_only (fun _ => "") [1, 0] 0.15 5
    _ _ _ [⟨[1, 0], some 1, ""⟩] [⟨[0, 1], some 2, ""⟩] hi hrun1 hrun2
  exact ⟨_, _, _, hi, hrun1, hrun2, q1, q2, q3⟩

/-- C10: there is an input vector whose (unrounded) drift exceeds the
threshold — so the event records `"DRIFT_ALERT"` and
`action_required = true` — while the event's rounded `drift_raw` is at
most the event's own recorded threshold: the stored drift value is not
the value the decision tested. -/
theorem c10_rounded_drift_below_threshold :
    ∃ (s s2 : LioraSentinel) (v : List ℝ) (r : ObserveResult)
      (e : AuditEvent),
      LioraSentinel.init (fun _ => "") [1, 0] 0.15 5 = Except.ok s ∧
      s.observe v none "" = (Except.ok r, s2) ∧
      s.threshold < r.drift ∧
      s2.history = [e] ∧
      e.drift_raw ≤ e.threshold ∧
      e.status = "DRIFT_ALERT" ∧
      e.action_required = true := by
  have hc2 : (0 : ℝ) ≤ 1 - 0.84999996 ^ 2 := by norm_num
  have hl2 : l2norm [(0.84999996 : ℝ), Real.sqrt (1 - 0.84999996 ^ 2)] = 1 := by
    rw [l2norm_pair, Real.mul_self_sqrt hc2]
    norm_num
  have hnorm : normalize [(0.84999996 : ℝ), Real.sqrt (1 - 0.84999996 ^ 2)] =
      Except.ok [(0.84999996 : ℝ), Real.sqrt (1 - 0.84999996 ^ 2)] := by
    rw [normalize_ok _ (by rw [hl2]; norm_num), hl2]
    norm_num
  have hcos : cosineDist [(1 : ℝ), 0]
      [(0.84999996 : ℝ), Real.sqrt (1 - 0.84999996 ^ 2)] = 0.15000004 := by
    rw [cosineDist, dot_pair, l2norm_one_zero, hl2]
    norm_num
  have hfl : round ((0.15000004 : ℝ) * 1000000) = 150000 := by
    rw [round_eq]
    refine Int.floor_eq_iff.mpr ⟨?_, ?_⟩ <;> norm_num
  have hround : round6 (0.15000004 : ℝ) = 0.15 := by
    rw [round6, hfl]
    norm_num
  refine ⟨⟨[(1 : ℝ), 0], 0.15, "", [], [], 5⟩, _,
    [(0.84999996 : ℝ), Real.sqrt (1 - 0.84999996 ^ 2)], _,
    builtEvent ⟨[(1 : ℝ), 0], 0.15, "", [], [], 5⟩
      (cosineDist [(1 : ℝ), 0]
        [(0.84999996 : ℝ), Real.sqrt (1 - 0.84999996 ^ 2)])
      (meanList (pushWindow 5 []
        (cosineDist [(1 : ℝ), 0]
          [(0.84999996 : ℝ), Real.sqrt (1 - 0.84999996 ^ 2)])))
      none "",
    by rw [LioraSentinel.init, normalize_one_zero],
    observe_ok_eq _ _ _ none "" hnorm, ?_, ?_, ?_, ?_, ?_⟩
  · simp only [hcos]
    norm_num
  · simp
  · simp only [builtEvent, hcos, hround]
    norm_num
  · simp only [builtEvent, hcos]
    rw [if_neg (by norm_num)]
  · simp only [builtEvent, hcos]
    rw [if_neg (by norm_num)]
    rfl

end

end Liora
